import Mathlib

/-!
Verification of the lyric-clipboard application's core: the LRC parser and
timeline lookup (package `lyrics`) and the polling state machine
(`internal/orchestrator/orchestrator.go`).

Embedding conventions:
* Go `time.Duration` is an `int64` count of nanoseconds; it is embedded as `Int`.
* Go strings are embedded as `List Char` where the parser walks them, and as
  `String` where the program only builds and compares them.
* `ParseLRC` scans its input with a `bufio.Scanner` using the default
  `ScanLines` split.  The scanner splits on `'\n'`, strips one trailing
  `'\r'` from each token, and fails with `ErrTooLong` as soon as a single
  line reaches `bufio.MaxScanTokenSize = 65536` bytes; `ParseLRC` checks
  `scanner.Err()` and turns that into an error return.  Both behaviours are
  part of the embedding (`RawLines`, `utf8Len`).
* The sort at the end of `ParseLRC` is `sort.Slice`, which Go documents as
  sorting the slice with the given comparator while being *not* guaranteed
  to be stable.  It is embedded by its contract `GoSortSlice`: `ParseLRC`
  is parameterized over a sort implementation, and theorems quantify over
  (or instantiate) implementations satisfying that contract.
* The orchestrator's external collaborators (detector, lyrics fetcher,
  clipboard) are inputs of the `tick` function: the detector result
  (`none` encodes a detection error), the fetch outcome used on the
  new-song branch, and whether a clipboard write succeeds.
-/

namespace LyricApp

/-! ### Data model (`lyrics` package) -/

/-- `LyricLine` — a timestamp (`time.Duration`, nanoseconds) and display text. -/
structure LyricLine where
  Time : Int
  Text : String
deriving DecidableEq

/-- `SyncedLyrics` — all lyric lines of one song. -/
structure SyncedLyrics where
  Lines : List LyricLine
deriving DecidableEq

/-! ### The timestamp regex `\[(\d{2}):(\d{2})\.?(\d{2})?\]`

`matchTS` decides whether the regex matches at the head of the character
list, returning the two-digit groups and how many characters beyond the
fixed prefix `[dd:dd` were consumed.  The optional groups follow the
regex backtracking preference: `.dd]`, then `.]`, then `dd]`, then `]`. -/

/-- `\d` — an ASCII digit, as matched by Go's regexp. -/
def isDig (c : Char) : Bool := 48 ≤ c.toNat && c.toNat ≤ 57

/-- Numeric value of a digit character (`strconv.Atoi` on a digit group). -/
def dval (c : Char) : Nat := c.toNat - 48

/-- Match `\d\d\]` at the head; returns the two-digit value and 3 consumed. -/
def csCloseJ : List Char → Option (Nat × Nat)
  | e :: f :: c :: _ =>
    if isDig e && isDig f && c = ']' then some (10 * dval e + dval f, 3) else none
  | _ => none

/-- Match `\]` at the head; returns 1 consumed. -/
def closeJ : List Char → Option Nat
  | c :: _ => if c = ']' then some 1 else none
  | [] => none

/-- Match `(\d{2})?\]`: a two-digit group (preferred) or nothing, then `]`.
Returns the centisecond value (0 when the group is absent) and consumed count. -/
def matchTailNoDot (t : List Char) : Option (Nat × Nat) :=
  match csCloseJ t with
  | some (cs, j) => some (cs, j)
  | none =>
    match closeJ t with
    | some j => some (0, j)
    | none => none

/-- Match `\.?(\d{2})?\]`: the greedy optional dot, then `matchTailNoDot`. -/
def matchTail (t : List Char) : Option (Nat × Nat) :=
  match t with
  | c :: t2 =>
    if c = '.' then
      match matchTailNoDot t2 with
      | some (cs, j) => some (cs, j + 1)
      | none => none
    else matchTailNoDot t
  | [] => none

/-- Match the whole timestamp regex at the head of `l`.  On success returns
`(minutes, seconds, centiseconds, j)` where the match consumed `6 + j`
characters (`[dd:dd` plus the tail). -/
def matchTS (l : List Char) : Option (Nat × Nat × Nat × Nat) :=
  match l with
  | c0 :: a :: b :: c1 :: c :: d :: rest =>
    if c0 = '[' && c1 = ':' && isDig a && isDig b && isDig c && isDig d then
      match matchTail rest with
      | some (cs, j) => some (10 * dval a + dval b, 10 * dval c + dval d, cs, j)
      | none => none
    else none
  | _ => none

/-- Leftmost, non-overlapping scan of one line: collect every regex match
(`FindAllStringSubmatch`) and the unmatched characters
(`ReplaceAllString` with `""`).  Fuelled structural recursion; each step
consumes at least one character, so `fuel = length` never runs out. -/
def scanTSF : Nat → List Char → List (Nat × Nat × Nat) × List Char
  | 0, l => ([], l)
  | _ + 1, [] => ([], [])
  | fuel + 1, ch :: rest =>
    match matchTS (ch :: rest) with
    | some (m, s, cs, j) =>
      let p := scanTSF fuel (List.drop (5 + j) rest)
      ((m, s, cs) :: p.1, p.2)
    | none =>
      let p := scanTSF fuel rest
      (p.1, ch :: p.2)

/-- Scan a whole line for timestamp matches and leftover text. -/
def scanTS (l : List Char) : List (Nat × Nat × Nat) × List Char :=
  scanTSF l.length l

/-! ### `strings.TrimSpace` and line splitting -/

/-- `unicode.IsSpace` — the White_Space property, as used by `strings.TrimSpace`. -/
def isGoSpace (c : Char) : Bool :=
  c = ' ' || c = '\t' || c = '\n' || c = '\x0b' || c = '\x0c' || c = '\r' ||
  c = '\x85' || c = '\xa0' || c = '\u1680' ||
  ('\u2000' ≤ c && c ≤ '\u200a') || c = '\u2028' || c = '\u2029' ||
  c = '\u202f' || c = '\u205f' || c = '\u3000'

/-- `strings.TrimSpace`: drop leading and trailing white space. -/
def goTrim (l : List Char) : List Char :=
  ((l.dropWhile isGoSpace).reverse.dropWhile isGoSpace).reverse

/-- Assemble a timestamp:
`Duration(m)*Minute + Duration(s)*Second + Duration(cs)*10*Millisecond`. -/
def durOf (m s cs : Nat) : Int :=
  ((m * 60000000000 + s * 1000000000 + cs * 10000000 : Nat) : Int)

/-- Process one scanned line of the LRC document: skip it when it contains
no timestamp; strip all timestamps and trim; skip it when the remaining
text is empty; otherwise emit one `LyricLine` per timestamp. -/
def processLine (line : List Char) : List LyricLine :=
  if (scanTS line).1 = [] then []
  else if goTrim (scanTS line).2 = [] then []
  else (scanTS line).1.map fun t =>
    { Time := durOf t.1 t.2.1 t.2.2, Text := String.mk (goTrim (scanTS line).2) }

/-- Split on `'\n'`, keeping all pieces (including empty interior ones). -/
def splitNL : List Char → List (List Char)
  | [] => [[]]
  | ch :: rest =>
    if ch = '\n' then [] :: splitNL rest
    else
      match splitNL rest with
      | t :: ts => (ch :: t) :: ts
      | [] => [[ch]]

/-- UTF-8 byte length of a character list (Go string length in bytes). -/
def utf8Len (l : List Char) : Nat := (l.map Char.utf8Size).sum

/-- The tokens produced by `bufio.Scanner`/`ScanLines` before `'\r'`
stripping: split on `'\n'` and drop the final piece when it is empty
(the scanner yields no empty final token after a trailing newline). -/
def RawLines (s : List Char) : List (List Char) :=
  if (splitNL s).getLast? = some ([] : List Char) then (splitNL s).dropLast
  else splitNL s

/-- `dropCR` — the scanner strips one `'\r'` from the end of each token. -/
def stripCR (l : List Char) : List Char :=
  if l.getLast? = some '\r' then l.dropLast else l

/-- All `LyricLine`s collected by the scanning loop of `ParseLRC`, in
source order, before sorting. -/
def extractLines (s : List Char) : List LyricLine :=
  ((RawLines s).map stripCR).flatMap processLine

/-- The two failure modes of `ParseLRC`: the `scanner.Err()` branch
("error reading LRC content") and the zero-usable-lines branch
("no valid lyrics found in LRC content"). -/
inductive ParseErr where
  | readError : ParseErr
  | emptyResult : ParseErr
deriving DecidableEq

/-- Comparator closure of `sort.Slice`'s `less` function
(`lines[i].Time < lines[j].Time`): the non-strict order it sorts by. -/
def leT (a b : LyricLine) : Prop := a.Time ≤ b.Time

instance : DecidableRel leT := fun a b => inferInstanceAs (Decidable (a.Time ≤ b.Time))

instance : IsTotal LyricLine leT := ⟨fun a b => Int.le_total a.Time b.Time⟩

instance : IsTrans LyricLine leT := ⟨fun _ _ _ h1 h2 => Int.le_trans h1 h2⟩

/-- Documented contract of Go's `sort.Slice` with the `Time`-comparator:
the result is a permutation of the input, sorted ascending by timestamp.
Stability is deliberately absent — `sort.Slice` is documented as not
guaranteed to be stable. -/
def GoSortSlice (f : List LyricLine → List LyricLine) : Prop :=
  ∀ l : List LyricLine, (f l).Perm l ∧ List.Sorted leT (f l)

/-- A stable implementation satisfying the `sort.Slice` contract. -/
def sortStable (l : List LyricLine) : List LyricLine := List.insertionSort leT l

/-- An implementation satisfying the `sort.Slice` contract that arranges
equal-timestamp lines in reversed source order. -/
def sortTiesReversed (l : List LyricLine) : List LyricLine :=
  List.insertionSort leT l.reverse

/-- `ParseLRC`, parameterized by the `sort.Slice` implementation: scan all
lines (failing when a line overflows the scanner), collect lyric lines,
fail when none survive, else return them sorted. -/
def ParseLRC (sortImpl : List LyricLine → List LyricLine) (s : List Char) :
    Except ParseErr SyncedLyrics :=
  if (RawLines s).any (fun line => 65536 ≤ utf8Len line) then .error .readError
  else if extractLines s = [] then .error .emptyResult
  else .ok { Lines := sortImpl (extractLines s) }

/-! ### `GetLineAtTime` -/

/-- The scanning loop of `GetLineAtTime`: remember the latest line whose
timestamp is `≤ position`, stop at the first line past `position`. -/
def lastLE (pos : Int) : List LyricLine → Option LyricLine → Option LyricLine
  | [], cur => cur
  | l :: rest, cur => if l.Time ≤ pos then lastLE pos rest (some l) else cur

/-- `GetLineAtTime` — the line to display at `position`. -/
def GetLineAtTime (sl : SyncedLyrics) (pos : Int) : Option LyricLine :=
  lastLE pos sl.Lines none

/-! ### Orchestrator (`internal/orchestrator/orchestrator.go`) -/

/-- `detector.SongInfo`. -/
structure SongInfo where
  Artist : String
  Title : String
  Album : String
  Position : Int
  IsPlaying : Bool
deriving DecidableEq

/-- `songKey := fmt.Sprintf("%s - %s", songInfo.Artist, songInfo.Title)`. -/
def songKeyOf (info : SongInfo) : String := info.Artist ++ " - " ++ info.Title

/-- `Fetcher.getCacheKey`: `fmt.Sprintf("%s|||%s", artist, title)`. -/
def getCacheKey (artist title : String) : String := artist ++ "|||" ++ title

/-- The orchestrator fields read and written by `tick`. -/
structure OrchState where
  currentSongKey : String
  currentLyrics : Option SyncedLyrics
  lastLyricText : String
  lyricOffset : Int
  updateClipboard : Bool
deriving DecidableEq

/-- Observable outcome of one `tick`: the updated state, the text of the
`log.Printf` line-change message if it fired, the text handed to the
clipboard if a write was attempted, and the text of a completed emission
(`lastLyricText` updated and the status callback invoked). -/
structure TickOut where
  state : OrchState
  logged : Option String
  wrote : Option String
  emitted : Option String
deriving DecidableEq

/-- Tail of `tick` after song identification: bail out without lyrics,
look up the line at `Position + lyricOffset`, and emit on a text change;
a failed clipboard write returns early, before `lastLyricText` is set. -/
def afterFetch (st : OrchState) (info : SongInfo) (clipOk : Bool) : TickOut :=
  match st.currentLyrics with
  | none => ⟨st, none, none, none⟩
  | some lyr =>
    match GetLineAtTime lyr (info.Position + st.lyricOffset) with
    | none => ⟨st, none, none, none⟩
    | some line =>
      if line.Text = st.lastLyricText then ⟨st, none, none, none⟩
      else if st.updateClipboard then
        if clipOk then
          ⟨{ st with lastLyricText := line.Text }, some line.Text, some line.Text,
            some line.Text⟩
        else ⟨st, some line.Text, some line.Text, none⟩
      else
        ⟨{ st with lastLyricText := line.Text }, some line.Text, none, some line.Text⟩

/-- One iteration of the polling loop.  `det` is the detector result
(`none` on detection failure), `fetch` the fetcher outcome consulted on
the new-song branch, `clipOk` whether a clipboard write would succeed. -/
def tick (st : OrchState) (det : Option SongInfo) (fetch : Except Unit SyncedLyrics)
    (clipOk : Bool) : TickOut :=
  match det with
  | none =>
    if st.currentSongKey = "" then ⟨st, none, none, none⟩
    else
      ⟨{ st with currentSongKey := "", currentLyrics := none, lastLyricText := "" },
        none, none, none⟩
  | some info =>
    if songKeyOf info = st.currentSongKey then afterFetch st info clipOk
    else
      match fetch with
      | .error _ =>
        ⟨{ st with
            currentSongKey := songKeyOf info
            lastLyricText := ""
            currentLyrics := none }, none, none, none⟩
      | .ok tl =>
        afterFetch
          { st with
              currentSongKey := songKeyOf info
              lastLyricText := ""
              currentLyrics := some tl } info clipOk

/-! ### Concrete data used by the scenario claims -/

/-- The specification's three-line example document. -/
def exampleDoc : List Char :=
  "[00:01.00]Hello\n[00:03.50]World\n[00:03.50]World (dup)\n".toList

/-- The timeline of the example document (stable tie order). -/
def exampleTimeline : SyncedLyrics :=
  { Lines := [{ Time := 1000000000, Text := "Hello" },
              { Time := 3500000000, Text := "World" },
              { Time := 3500000000, Text := "World (dup)" }] }

/-- A document whose second line is 65536 bytes long, overflowing the
scanner's token buffer. -/
def bigDoc : List Char := "[00:01.00]Hi".toList ++ '\n' :: List.replicate 65536 'a'

/-- The freshly constructed orchestrator state (no song tracked). -/
def idleSt : OrchState := ⟨"", none, "", 0, true⟩

/-! Statement-forming helpers for the offset claim: shift a sample's
position and restore an offset field on a tick outcome. -/

/-- Shift the playback position of a detector sample by `O`. -/
def shiftSample (O : Int) : Option SongInfo → Option SongInfo :=
  Option.map fun i => { i with Position := i.Position + O }

/-- Restore the `lyricOffset` field of a tick outcome's state. -/
def reOffset (O : Int) (r : TickOut) : TickOut :=
  ⟨{ r.state with lyricOffset := O }, r.logged, r.wrote, r.emitted⟩

/-! Concrete data for the song-identity claims: two distinct `(artist,
title)` pairs whose formatted keys collide. -/

def tlL : SyncedLyrics := ⟨[⟨0, "LineL"⟩]⟩

def iKeyA : SongInfo := ⟨"A", "B - C", "", 0, true⟩

def iKeyB : SongInfo := ⟨"A - B", "C", "", 0, true⟩

def i7a : SongInfo := ⟨"Neil - Young", "Harvest", "", 0, true⟩

def i7b : SongInfo := ⟨"Neil", "Young - Harvest", "", 0, true⟩

def tl7 : SyncedLyrics := ⟨[⟨0, "Heart of Gold"⟩]⟩

def st7 : OrchState := ⟨songKeyOf i7a, some tl7, "Heart of Gold", 0, true⟩

/-! Concrete data for the clipboard-failure claim. -/

def tl8 : SyncedLyrics := ⟨[⟨0, "New"⟩]⟩

def st8 : OrchState := ⟨"K1 - K2", some tl8, "Old", 0, true⟩

def i8 : SongInfo := ⟨"K1", "K2", "", 0, true⟩

/-! Concrete data for the debounce witness. -/

def tlW : SyncedLyrics := ⟨[⟨0, "Hi"⟩]⟩

def stW : OrchState := ⟨"W1 - W2", some tlW, "", 0, true⟩

def iW : SongInfo := ⟨"W1", "W2", "", 0, true⟩

/-! Concrete data for the song-change-reset witness: the new song's first
line has the same text as the previous song's last emitted line. -/

def tlV : SyncedLyrics := ⟨[⟨0, "Same"⟩]⟩

def stV : OrchState := ⟨"Old - Key", some tlV, "Same", 0, true⟩

def iV : SongInfo := ⟨"N1", "N2", "", 0, true⟩

/-! The specification's five-tick scenario stream, run against the
example timeline with offset 0. -/

def scenT1 : TickOut :=
  tick idleSt (some ⟨"Alpha", "Song", "", 0, true⟩) (.ok exampleTimeline) true

def scenT2 : TickOut :=
  tick scenT1.state (some ⟨"Alpha", "Song", "", 1200000000, true⟩) (.ok exampleTimeline) true

def scenT3 : TickOut :=
  tick scenT2.state (some ⟨"Alpha", "Song", "", 1200000000, true⟩) (.ok exampleTimeline) true

def scenT4 : TickOut := tick scenT3.state none (.ok exampleTimeline) true

def scenT5 : TickOut :=
  tick scenT4.state (some ⟨"Alpha", "Song", "", 500000000, true⟩) (.ok exampleTimeline) true

/-- The five emissions of the scenario stream. -/
def scenEmissions : List (Option String) :=
  [scenT1.emitted, scenT2.emitted, scenT3.emitted, scenT4.emitted, scenT5.emitted]

/-- The scanning loop returns the last element of the longest prefix
satisfying the cutoff, falling back to the accumulator. -/
theorem lastLE_eq_takeWhile (pos : Int) (l : List LyricLine) (cur : Option LyricLine) :
    lastLE pos l cur =
      ((l.takeWhile fun x => decide (x.Time ≤ pos)).getLast?).elim cur some := by
  induction l generalizing cur with
  | nil => simp [lastLE]
  | cons x rest ih =>
    by_cases hx : x.Time ≤ pos
    · rw [lastLE, if_pos hx, ih, List.takeWhile_cons, if_pos (by simpa using hx)]
      cases h : (rest.takeWhile fun x => decide (x.Time ≤ pos)).getLast? with
      | none =>
        have : rest.takeWhile (fun x => decide (x.Time ≤ pos)) = [] := by
          simpa [List.getLast?_eq_none_iff] using h
        simp [this]
      | some z =>
        have hne : rest.takeWhile (fun x => decide (x.Time ≤ pos)) ≠ [] := by
          intro hc; rw [hc] at h; simp at h
        cases hw : rest.takeWhile fun x => decide (x.Time ≤ pos) with
        | nil => exact absurd hw hne
        | cons y ys =>
          rw [hw] at h
          simp [List.getLast?_cons_cons, h]
    · rw [lastLE, if_neg hx, List.takeWhile_cons, if_neg (by simpa using hx)]
      simp

/-- On a sorted timeline the lines at or before `pos` form a prefix. -/
theorem sorted_filter_eq_takeWhile (pos : Int) (l : List LyricLine)
    (hs : List.Sorted leT l) :
    (l.filter fun x => decide (x.Time ≤ pos)) =
      l.takeWhile fun x => decide (x.Time ≤ pos) := by
  induction l with
  | nil => simp
  | cons x rest ih =>
    rw [List.sorted_cons] at hs
    by_cases hx : x.Time ≤ pos
    · simp only [List.filter_cons, List.takeWhile_cons]
      rw [if_pos (by simpa using hx), if_pos (by simpa using hx), ih hs.2]
    · simp only [List.filter_cons, List.takeWhile_cons]
      rw [if_neg (by simpa using hx), if_neg (by simpa using hx)]
      rw [List.filter_eq_nil_iff]
      intro a ha
      simp only [decide_eq_true_eq]
      intro hle
      exact hx (le_trans (hs.1 a ha) hle)

/-- C2.  On a sorted timeline, `GetLineAtTime` returns the last line whose
timestamp is ≤ the queried position (the last element of the filtered
list), and returns `none` exactly when the position (negative positions
included) precedes every timestamp.  This entails the claimed boundary
cases: the line itself at its exact timestamp, the earlier line between
two timestamps, the final line past the end; the function is total, so
it never errors. -/
theorem getLineAtTime_last_le (sl : SyncedLyrics) (pos : Int)
    (hs : List.Sorted leT sl.Lines) :
    GetLineAtTime sl pos = (sl.Lines.filter fun l => decide (l.Time ≤ pos)).getLast? ∧
    (GetLineAtTime sl pos = none ↔ ∀ l ∈ sl.Lines, pos < l.Time) := by
  have h1 : GetLineAtTime sl pos =
      (sl.Lines.filter fun l => decide (l.Time ≤ pos)).getLast? := by
    rw [GetLineAtTime, lastLE_eq_takeWhile, sorted_filter_eq_takeWhile pos _ hs]
    cases h : (sl.Lines.takeWhile fun x => decide (x.Time ≤ pos)).getLast? <;> simp
  refine ⟨h1, ?_⟩
  rw [h1, List.getLast?_eq_none_iff, List.filter_eq_nil_iff]
  constructor
  · intro h l hl
    have := h l hl
    simp only [decide_eq_true_eq] at this
    omega
  · intro h l hl
    simp only [decide_eq_true_eq]
    have := h l hl
    omega

/-- C2 witness: the lookup characterization at the example timeline and
position 2.0s. -/
theorem getLineAtTime_last_le_witness :
    GetLineAtTime exampleTimeline 2000000000 =
      (exampleTimeline.Lines.filter fun l => decide (l.Time ≤ 2000000000)).getLast? ∧
    (GetLineAtTime exampleTimeline 2000000000 = none ↔
      ∀ l ∈ exampleTimeline.Lines, 2000000000 < l.Time) :=
  getLineAtTime_last_le exampleTimeline 2000000000 (by decide)

/-- The stable insertion sort satisfies the `sort.Slice` contract. -/
theorem goSortSlice_sortStable : GoSortSlice sortStable := fun l =>
  ⟨List.perm_insertionSort leT l, List.sorted_insertionSort leT l⟩

/-- The tie-reversing sort also satisfies the `sort.Slice` contract. -/
theorem goSortSlice_sortTiesReversed : GoSortSlice sortTiesReversed := fun l =>
  ⟨(List.perm_insertionSort leT l.reverse).trans (List.reverse_perm l),
   List.sorted_insertionSort leT l.reverse⟩

/-- Inversion of a successful `ParseLRC`: at least one lyric line was
collected, and the returned lines are the sorted collected lines. -/
theorem parse_ok_inv (f : List LyricLine → List LyricLine) (s : List Char)
    (tl : SyncedLyrics) (h : ParseLRC f s = .ok tl) :
    extractLines s ≠ [] ∧ tl.Lines = f (extractLines s) := by
  rw [ParseLRC] at h
  split at h
  · exact absurd h (by simp)
  · split at h
    · exact absurd h (by simp)
    · rename_i hne
      refine ⟨hne, ?_⟩
      cases h
      rfl

/-- C1, amended.  For every input document and every sort implementation
satisfying the documented `sort.Slice` contract, a successful `ParseLRC`
returns a timeline that is a permutation of the extracted lyric lines,
sorted ascending by timestamp.  The relative order of equal-timestamp
lines is NOT guaranteed: `sort.Slice` is documented as unstable, so the
stability part of the original claim is dropped (see the
counterexample). -/
theorem parse_sorted_perm (f : List LyricLine → List LyricLine) (hf : GoSortSlice f)
    (s : List Char) (tl : SyncedLyrics) (h : ParseLRC f s = .ok tl) :
    tl.Lines.Perm (extractLines s) ∧ List.Sorted leT tl.Lines := by
  obtain ⟨-, hl⟩ := parse_ok_inv f s tl h
  rw [hl]
  exact ⟨(hf (extractLines s)).1, (hf (extractLines s)).2⟩

/-- C1 witness: the amended theorem instantiated at the stable sort and
the three-line example document. -/
theorem parse_sorted_perm_witness :
    exampleTimeline.Lines.Perm (extractLines exampleDoc) ∧
    List.Sorted leT exampleTimeline.Lines :=
  parse_sorted_perm sortStable goSortSlice_sortStable exampleDoc exampleTimeline rfl

/-- C1 counterexample.  Go documents `sort.Slice` as not guaranteed to be
stable, so the program text only warrants the `GoSortSlice` contract.
`sortTiesReversed` satisfies that contract, yet parsing the claim's own
three-line document with it yields the two 3.50s lines in reversed
source order — refuting the claim that the timeline always preserves
source order on equal timestamps. -/
theorem parse_stable_sort_counterexample :
    (GoSortSlice sortTiesReversed ∧
      ParseLRC sortTiesReversed exampleDoc =
        .ok { Lines := [{ Time := 1000000000, Text := "Hello" },
                        { Time := 3500000000, Text := "World (dup)" },
                        { Time := 3500000000, Text := "World" }] } ∧
      extractLines exampleDoc =
        [{ Time := 1000000000, Text := "Hello" },
         { Time := 3500000000, Text := "World" },
         { Time := 3500000000, Text := "World (dup)" }]) ∧
    ¬ (∀ g, GoSortSlice g → ParseLRC g exampleDoc = .ok exampleTimeline) := by
  refine ⟨⟨goSortSlice_sortTiesReversed, rfl, rfl⟩, fun h => ?_⟩
  have h2 := h sortTiesReversed goSortSlice_sortTiesReversed
  rw [show ParseLRC sortTiesReversed exampleDoc =
        .ok { Lines := [{ Time := 1000000000, Text := "Hello" },
                        { Time := 3500000000, Text := "World (dup)" },
                        { Time := 3500000000, Text := "World" }] } from rfl] at h2
  simp [exampleTimeline] at h2



/-- A digit character contributes a value of at most 9. -/
theorem dval_le_of_isDig (c : Char) (h : isDig c = true) : dval c ≤ 9 := by
  rw [isDig, Bool.and_eq_true, decide_eq_true_eq, decide_eq_true_eq] at h
  rw [dval]
  omega

/-- The two-digit centisecond group is at most 99. -/
theorem csCloseJ_cs_le (t : List Char) (cs j : Nat) (h : csCloseJ t = some (cs, j)) :
    cs ≤ 99 := by
  match t with
  | [] => simp [csCloseJ] at h
  | [e] => simp [csCloseJ] at h
  | [e, f] => simp [csCloseJ] at h
  | e :: f :: c :: rest =>
    rw [csCloseJ] at h
    split at h
    · rename_i hc
      rw [Bool.and_eq_true, Bool.and_eq_true] at hc
      obtain ⟨⟨he, hf⟩, -⟩ := hc
      have h1 := dval_le_of_isDig e he
      have h2 := dval_le_of_isDig f hf
      cases h
      omega
    · simp at h

/-- The optional centisecond group is at most 99 (0 when absent). -/
theorem matchTailNoDot_cs_le (t : List Char) (cs j : Nat)
    (h : matchTailNoDot t = some (cs, j)) : cs ≤ 99 := by
  rw [matchTailNoDot] at h
  split at h
  · rename_i p hp
    cases h
    exact csCloseJ_cs_le t _ _ hp
  · split at h
    · cases h; omega
    · simp at h

/-- The centisecond value of a matched timestamp tail is at most 99. -/
theorem matchTail_cs_le (t : List Char) (cs j : Nat)
    (h : matchTail t = some (cs, j)) : cs ≤ 99 := by
  match t with
  | [] => simp [matchTail] at h
  | c :: t2 =>
    rw [matchTail] at h
    split at h
    · split at h
      · rename_i p hp
        cases h
        exact matchTailNoDot_cs_le t2 _ _ hp
      · simp at h
    · exact matchTailNoDot_cs_le (c :: t2) _ _ h

/-- Each matched timestamp has two-digit groups: every component ≤ 99. -/
theorem matchTS_bounds (l : List Char) (m s cs j : Nat)
    (h : matchTS l = some (m, s, cs, j)) : m ≤ 99 ∧ s ≤ 99 ∧ cs ≤ 99 := by
  match l with
  | [] => simp [matchTS] at h
  | [a] => simp [matchTS] at h
  | [a, b] => simp [matchTS] at h
  | [a, b, c] => simp [matchTS] at h
  | [a, b, c, d] => simp [matchTS] at h
  | [a, b, c, d, e] => simp [matchTS] at h
  | c0 :: a :: b :: c1 :: c :: d :: rest =>
    rw [matchTS] at h
    split at h
    · rename_i hc
      simp only [Bool.and_eq_true] at hc
      obtain ⟨⟨⟨⟨⟨-, -⟩, ha⟩, hb⟩, hcd⟩, hd⟩ := hc
      split at h
      · rename_i p hp
        cases h
        have h1 := dval_le_of_isDig a ha
        have h2 := dval_le_of_isDig b hb
        have h3 := dval_le_of_isDig c hcd
        have h4 := dval_le_of_isDig d hd
        have h5 := matchTail_cs_le rest _ _ hp
        omega
      · simp at h
    · simp at h

/-- Every timestamp triple collected by the scan has components ≤ 99. -/
theorem scanTSF_bounds (fuel : Nat) (l : List Char) (m s cs : Nat)
    (h : (m, s, cs) ∈ (scanTSF fuel l).1) : m ≤ 99 ∧ s ≤ 99 ∧ cs ≤ 99 := by
  induction fuel generalizing l with
  | zero => simp [scanTSF] at h
  | succ fuel ih =>
    match l with
    | [] => simp [scanTSF] at h
    | ch :: rest =>
      cases hp : matchTS (ch :: rest) with
      | none =>
        rw [scanTSF, hp] at h
        exact ih _ h
      | some q =>
        obtain ⟨m2, s2, cs2, j⟩ := q
        rw [scanTSF, hp] at h
        simp only [List.mem_cons, Prod.mk.injEq] at h
        rcases h with ⟨rfl, rfl, rfl⟩ | h
        · exact matchTS_bounds _ _ _ _ _ hp
        · exact ih _ h

/-- With all components ≤ 99, an assembled duration lies between 0 and
99 min + 99 s + 99 cs = 6039990000000 nanoseconds. -/
theorem durOf_bounds (m s cs : Nat) (hm : m ≤ 99) (hs : s ≤ 99) (hcs : cs ≤ 99) :
    0 ≤ durOf m s cs ∧ durOf m s cs ≤ 6039990000000 := by
  rw [durOf]
  constructor
  · exact Int.natCast_nonneg _
  · have : m * 60000000000 + s * 1000000000 + cs * 10000000 ≤ 6039990000000 := by omega
    exact_mod_cast this

/-- Every line emitted by `processLine` has nonempty text and an in-range
timestamp. -/
theorem processLine_props (line : List Char) (l : LyricLine) (h : l ∈ processLine line) :
    l.Text ≠ "" ∧ 0 ≤ l.Time ∧ l.Time ≤ 6039990000000 := by
  rw [processLine] at h
  split at h
  · simp at h
  · split at h
    · simp at h
    · rename_i hts htext
      simp only [List.mem_map] at h
      obtain ⟨⟨m, s, cs⟩, hmem, rfl⟩ := h
      have hb := scanTSF_bounds _ _ _ _ _ hmem
      refine ⟨?_, durOf_bounds m s cs hb.1 hb.2.1 hb.2.2⟩
      intro hc
      apply htext
      have := congrArg String.data hc
      simpa using this

/-- Every collected lyric line has nonempty text and an in-range
timestamp. -/
theorem extractLines_props (s : List Char) (l : LyricLine) (h : l ∈ extractLines s) :
    l.Text ≠ "" ∧ 0 ≤ l.Time ∧ l.Time ≤ 6039990000000 := by
  rw [extractLines] at h
  rw [List.mem_flatMap] at h
  obtain ⟨line, -, hl⟩ := h
  exact processLine_props line l hl

/-- C10, amended.  Every successfully parsed timeline (under any
contract-conforming sort) is non-empty, every line's trimmed text is
non-empty, and every timestamp is non-negative and at most
99 minutes 99 seconds 99 centiseconds (6039990000000 ns): the regex
allows two-digit seconds up to 99, so the original bound of 99:59.99
(5999990000000 ns) is too small (see the counterexample). -/
theorem parse_invariants (f : List LyricLine → List LyricLine) (hf : GoSortSlice f)
    (s : List Char) (tl : SyncedLyrics) (h : ParseLRC f s = .ok tl) :
    tl.Lines ≠ [] ∧
    ∀ l ∈ tl.Lines, l.Text ≠ "" ∧ 0 ≤ l.Time ∧ l.Time ≤ 6039990000000 := by
  obtain ⟨hne, hl⟩ := parse_ok_inv f s tl h
  have hperm : tl.Lines.Perm (extractLines s) := hl ▸ (hf (extractLines s)).1
  constructor
  · intro hc
    apply hne
    have := hperm.length_eq
    rw [hc] at this
    exact List.length_eq_zero.mp this.symm
  · intro l hlmem
    exact extractLines_props s l (hperm.mem_iff.mp hlmem)

/-- C10 witness: the invariants instantiated at the stable sort and the
document consisting of the line `[00:01.00]Hi`. -/
theorem parse_invariants_witness :
    ({ Lines := [{ Time := 1000000000, Text := "Hi" }] } : SyncedLyrics).Lines ≠ [] ∧
    ∀ l ∈ ({ Lines := [{ Time := 1000000000, Text := "Hi" }] } : SyncedLyrics).Lines,
      l.Text ≠ "" ∧ 0 ≤ l.Time ∧ l.Time ≤ 6039990000000 :=
  parse_invariants sortStable goSortSlice_sortStable ("[00:01.00]Hi".toList)
    { Lines := [{ Time := 1000000000, Text := "Hi" }] } rfl

/-- C10 counterexample: the document `[99:99.99]X` parses successfully
with timestamp 99 min + 99 s + 99 cs = 6039990000000 ns, which exceeds
the claimed maximum of 99:59.99 = 5999990000000 ns. -/
theorem parse_timestamp_bound_counterexample :
    ParseLRC sortStable ("[99:99.99]X".toList) =
      .ok { Lines := [{ Time := 6039990000000, Text := "X" }] } ∧
    ¬ (6039990000000 : Int) ≤ 5999990000000 := ⟨rfl, by decide⟩


/-- Splitting a newline-free list yields that single piece. -/
theorem splitNL_no_nl (xs : List Char) (h : '\n' ∉ xs) : splitNL xs = [xs] := by
  induction xs with
  | nil => rfl
  | cons c rest ih =>
    simp only [List.mem_cons, not_or] at h
    rw [splitNL, if_neg (fun hc => h.1 hc.symm), ih h.2]

/-- Splitting at the first newline peels off the first line. -/
theorem splitNL_append_nl (xs ys : List Char) (h : '\n' ∉ xs) :
    splitNL (xs ++ '\n' :: ys) = xs :: splitNL ys := by
  induction xs with
  | nil => rw [List.nil_append, splitNL, if_pos rfl]
  | cons c rest ih =>
    simp only [List.mem_cons, not_or] at h
    rw [List.cons_append, splitNL, if_neg (fun hc => h.1 hc.symm), ih h.2]



/-- UTF-8 length of a replicated character. -/
theorem utf8Len_replicate (n : Nat) (c : Char) :
    utf8Len (List.replicate n c) = n * c.utf8Size := by
  induction n with
  | zero => simp [utf8Len]
  | succ n ih =>
    rw [List.replicate_succ, utf8Len, List.map_cons, List.sum_cons, Nat.succ_mul]
    rw [utf8Len] at ih
    omega



/-- A run of letters contains no newline. -/
theorem nl_not_mem_replicate (n : Nat) : '\n' ∉ List.replicate n 'a' := by
  intro hm
  rw [List.mem_replicate] at hm
  exact absurd hm.2 (by decide)

/-- `bigDoc` splits into its short first line and the 65536-byte line. -/
theorem splitNL_bigDoc :
    splitNL bigDoc = ["[00:01.00]Hi".toList, List.replicate 65536 'a'] := by
  rw [bigDoc, splitNL_append_nl _ _ (by decide),
    splitNL_no_nl _ (nl_not_mem_replicate 65536)]

/-- The scanner tokens of `bigDoc`. -/
theorem rawLines_bigDoc :
    RawLines bigDoc = ["[00:01.00]Hi".toList, List.replicate 65536 'a'] := by
  have h2 : (splitNL bigDoc).getLast? ≠ some ([] : List Char) := by
    rw [splitNL_bigDoc]
    simp only [List.getLast?_cons_cons, List.getLast?_singleton, ne_eq,
      Option.some.injEq]
    intro hc
    have h3 := congrArg List.length hc
    rw [List.length_replicate] at h3
    simp at h3
  rw [RawLines, if_neg h2, splitNL_bigDoc]

/-- The second line of `bigDoc` is exactly 65536 bytes. -/
theorem utf8Len_bigLine : utf8Len (List.replicate 65536 'a') = 65536 := by
  rw [utf8Len_replicate]
  rfl

/-- C3, amended.  For inputs in which every line is shorter than the
scanner's 65536-byte token limit, `ParseLRC` fails if and only if zero
lyric lines survive filtering, the failure is the empty-result error,
and otherwise the full (never partial) timeline is returned.  The
claim's only-failure-mode part is amended: a single line of 65536 bytes
or more makes the `bufio.Scanner` report `ErrTooLong`, which `ParseLRC`
turns into its read-error failure (see the counterexample). -/
theorem parse_failure_modes (f : List LyricLine → List LyricLine) (s : List Char) :
    ((∀ line ∈ RawLines s, utf8Len line < 65536) →
      ((ParseLRC f s = .error .emptyResult ↔ extractLines s = []) ∧
       (extractLines s ≠ [] → ParseLRC f s = .ok { Lines := f (extractLines s) })))
    ∧ ((∃ line ∈ RawLines s, 65536 ≤ utf8Len line) → ParseLRC f s = .error .readError) := by
  constructor
  · intro hshort
    have hany : ((RawLines s).any fun line => 65536 ≤ utf8Len line) = false := by
      rw [List.any_eq_false]
      intro line hline
      have := hshort line hline
      simp only [decide_eq_true_eq]
      omega
    rw [ParseLRC, hany]
    simp only [Bool.false_eq_true, if_false]
    by_cases hx : extractLines s = []
    · rw [if_pos hx]
      simp [hx]
    · rw [if_neg hx]
      simp [hx]
  · intro ⟨line, hmem, hlong⟩
    have hany : ((RawLines s).any fun line => 65536 ≤ utf8Len line) = true := by
      rw [List.any_eq_true]
      exact ⟨line, hmem, by simpa using hlong⟩
    rw [ParseLRC, hany]
    simp

/-- C3 witness: the short-line case instantiated at `plain text`, whose
parse fails with the empty-result error iff no lyric lines survive. -/
theorem parse_failure_modes_witness :
    (ParseLRC sortStable ("plain text".toList) = .error .emptyResult ↔
      extractLines ("plain text".toList) = []) ∧
    (extractLines ("plain text".toList) ≠ [] →
      ParseLRC sortStable ("plain text".toList) =
        .ok { Lines := sortStable (extractLines ("plain text".toList)) }) :=
  (parse_failure_modes sortStable ("plain text".toList)).1 (by decide)

/-- C3 counterexample: `bigDoc` contains a perfectly good lyric line, so
lines survive filtering, yet `ParseLRC` fails — and with the read
error, not the empty-result error.  Empty-result is therefore not the
only failure mode, and the claimed equivalence between failing and zero
surviving lines is false. -/
theorem parse_errtoolong_counterexample :
    ParseLRC sortStable bigDoc = .error .readError ∧
    extractLines bigDoc ≠ [] ∧ ParseErr.readError ≠ ParseErr.emptyResult := by
  refine ⟨?_, ?_, by decide⟩
  · have hany : ((RawLines bigDoc).any fun line => 65536 ≤ utf8Len line) = true := by
      rw [List.any_eq_true]
      refine ⟨List.replicate 65536 'a', ?_, by rw [utf8Len_bigLine]; decide⟩
      rw [rawLines_bigDoc]
      exact List.mem_cons_of_mem _ (List.mem_cons_self _ _)
    rw [ParseLRC, hany]
    simp
  · rw [extractLines, rawLines_bigDoc]
    rw [List.map_cons, List.flatMap_cons]
    rw [show stripCR ("[00:01.00]Hi".toList) = "[00:01.00]Hi".toList from rfl]
    rw [show processLine ("[00:01.00]Hi".toList) =
      [{ Time := 1000000000, Text := "Hi" }] from rfl]
    rw [List.cons_append]
    exact List.cons_ne_nil _ _


/-- Tick tail: without a timeline the tick does nothing. -/
theorem afterFetch_eq_none_lyr (st : OrchState) (info : SongInfo) (c : Bool)
    (h : st.currentLyrics = none) : afterFetch st info c = ⟨st, none, none, none⟩ := by
  simp only [afterFetch, h]

/-- Tick tail: no active line at the adjusted position, do nothing. -/
theorem afterFetch_eq_no_line (st : OrchState) (info : SongInfo) (c : Bool)
    (lyr : SyncedLyrics) (h : st.currentLyrics = some lyr)
    (h2 : GetLineAtTime lyr (info.Position + st.lyricOffset) = none) :
    afterFetch st info c = ⟨st, none, none, none⟩ := by
  simp only [afterFetch, h, h2]

/-- Tick tail unfolded at a resolved line: the debounce comparison and
the clipboard-gated emission. -/
theorem afterFetch_eq_line (st : OrchState) (info : SongInfo) (c : Bool)
    (lyr : SyncedLyrics) (line : LyricLine) (h : st.currentLyrics = some lyr)
    (h2 : GetLineAtTime lyr (info.Position + st.lyricOffset) = some line) :
    afterFetch st info c =
      if line.Text = st.lastLyricText then ⟨st, none, none, none⟩
      else if st.updateClipboard then
        if c then
          ⟨{ st with lastLyricText := line.Text }, some line.Text, some line.Text,
            some line.Text⟩
        else ⟨st, some line.Text, some line.Text, none⟩
      else
        ⟨{ st with lastLyricText := line.Text }, some line.Text, none,
          some line.Text⟩ := by
  simp only [afterFetch, h, h2]

/-- Tick unfolded at a present sample: same-song versus new-song. -/
theorem tick_some_eq (st : OrchState) (info : SongInfo)
    (fetch : Except Unit SyncedLyrics) (c : Bool) :
    tick st (some info) fetch c =
      if songKeyOf info = st.currentSongKey then afterFetch st info c
      else
        match fetch with
        | .error _ =>
          ⟨{ st with
              currentSongKey := songKeyOf info
              lastLyricText := ""
              currentLyrics := none }, none, none, none⟩
        | .ok tl =>
          afterFetch
            { st with
                currentSongKey := songKeyOf info
                lastLyricText := ""
                currentLyrics := some tl } info c := rfl

/-- When the resolved line equals the last emitted text, the tick tail
changes nothing and emits nothing. -/
theorem afterFetch_no_change (st : OrchState) (info : SongInfo) (c : Bool)
    (lyr : SyncedLyrics) (line : LyricLine) (h1 : st.currentLyrics = some lyr)
    (h2 : GetLineAtTime lyr (info.Position + st.lyricOffset) = some line)
    (h3 : line.Text = st.lastLyricText) :
    afterFetch st info c = ⟨st, none, none, none⟩ := by
  rw [afterFetch_eq_line st info c lyr line h1 h2, if_pos h3]

/-- Inversion of an emission: the state only gained the emitted text,
which is the text of the line resolved in the current timeline at the
adjusted position. -/
theorem afterFetch_emitted_inv (st : OrchState) (info : SongInfo) (t : String)
    (h : (afterFetch st info true).emitted = some t) :
    (afterFetch st info true).state = { st with lastLyricText := t } ∧
    ∃ lyr line, st.currentLyrics = some lyr ∧
      GetLineAtTime lyr (info.Position + st.lyricOffset) = some line ∧
      line.Text = t := by
  cases hc : st.currentLyrics with
  | none => rw [afterFetch_eq_none_lyr st info true hc] at h; simp at h
  | some lyr =>
    cases hg : GetLineAtTime lyr (info.Position + st.lyricOffset) with
    | none => rw [afterFetch_eq_no_line st info true lyr hc hg] at h; simp at h
    | some line =>
      rw [afterFetch_eq_line st info true lyr line hc hg] at h ⊢
      by_cases ht : line.Text = st.lastLyricText
      · rw [if_pos ht] at h; simp at h
      · rw [if_neg ht] at h ⊢
        by_cases hu : st.updateClipboard
        · rw [if_pos hu] at h ⊢
          rw [if_pos rfl] at h ⊢
          simp only [Option.some.injEq] at h
          subst h
          refine ⟨?_, lyr, line, rfl, hg, rfl⟩
          rw [hc]
        · rw [if_neg hu] at h ⊢
          simp only [Option.some.injEq] at h
          subst h
          refine ⟨?_, lyr, line, rfl, hg, rfl⟩
          rw [hc]

/-- A same-song tick whose resolved line matches the last emitted text is
a complete no-op. -/
theorem tick_no_change (st : OrchState) (info : SongInfo)
    (fetch : Except Unit SyncedLyrics) (lyr : SyncedLyrics) (line : LyricLine)
    (hc : st.currentLyrics = some lyr) (hk : songKeyOf info = st.currentSongKey)
    (hg : GetLineAtTime lyr (info.Position + st.lyricOffset) = some line)
    (ht : line.Text = st.lastLyricText) :
    tick st (some info) fetch true = ⟨st, none, none, none⟩ := by
  rw [tick_some_eq, if_pos hk]
  exact afterFetch_no_change _ _ true lyr line hc hg ht

/-- C4.  Debounce: (1) after any tick that emits, repeating the identical
sample (with the clipboard succeeding) leaves the state unchanged and
emits nothing — consecutive identical samples yield exactly one
emission, on the first tick; (2) a tick whose resolved line text equals
`lastLyricText` is a no-op; (3) such a first tick does emit when the
resolved text differs from `lastLyricText`. -/
theorem tick_debounce (st : OrchState) (info : SongInfo)
    (fetch : Except Unit SyncedLyrics) :
    (∀ t, (tick st (some info) fetch true).emitted = some t →
      tick (tick st (some info) fetch true).state (some info) fetch true =
        ⟨(tick st (some info) fetch true).state, none, none, none⟩) ∧
    (∀ lyr line, st.currentLyrics = some lyr →
      songKeyOf info = st.currentSongKey →
      GetLineAtTime lyr (info.Position + st.lyricOffset) = some line →
      line.Text = st.lastLyricText →
      tick st (some info) fetch true = ⟨st, none, none, none⟩) ∧
    (∀ lyr line, st.currentLyrics = some lyr →
      songKeyOf info = st.currentSongKey →
      GetLineAtTime lyr (info.Position + st.lyricOffset) = some line →
      line.Text ≠ st.lastLyricText →
      (tick st (some info) fetch true).emitted = some line.Text) := by
  refine ⟨?_, ?_, ?_⟩
  · intro t h
    by_cases hk : songKeyOf info = st.currentSongKey
    · have houter : tick st (some info) fetch true = afterFetch st info true := by
        rw [tick_some_eq, if_pos hk]
      rw [houter] at h
      obtain ⟨hstate, lyr, line, hc, hg, hlt⟩ := afterFetch_emitted_inv st info t h
      rw [houter, hstate]
      exact tick_no_change _ _ _ lyr line hc hk hg hlt
    · cases fetch with
      | error e =>
        have houter : tick st (some info) (.error e) true =
            ⟨{ st with
                currentSongKey := songKeyOf info
                lastLyricText := ""
                currentLyrics := none }, none, none, none⟩ := by
          rw [tick_some_eq, if_neg hk]
        rw [houter] at h
        simp at h
      | ok tl =>
        have houter : tick st (some info) (.ok tl) true =
            afterFetch
              { st with
                  currentSongKey := songKeyOf info
                  lastLyricText := ""
                  currentLyrics := some tl } info true := by
          rw [tick_some_eq, if_neg hk]
        rw [houter] at h
        obtain ⟨hstate, lyr, line, hc, hg, hlt⟩ :=
          afterFetch_emitted_inv
            { st with
                currentSongKey := songKeyOf info
                lastLyricText := ""
                currentLyrics := some tl } info t h
        rw [houter, hstate]
        exact tick_no_change _ _ _ lyr line hc rfl hg hlt
  · intro lyr line hc hk hg ht
    exact tick_no_change _ _ _ lyr line hc hk hg ht
  · intro lyr line hc hk hg ht
    rw [tick_some_eq, if_pos hk, afterFetch_eq_line st info true lyr line hc hg,
      if_neg ht]
    by_cases hu : st.updateClipboard
    · rw [if_pos hu, if_pos rfl]
    · rw [if_neg hu]

/-- C4 witness: after the concrete emitting tick, the identical next tick
is a no-op. -/
theorem tick_debounce_witness :
    tick (tick stW (some iW) (.error ()) true).state (some iW) (.error ()) true =
      ⟨(tick stW (some iW) (.error ()) true).state, none, none, none⟩ :=
  (tick_debounce stW iW (.error ())).1 "Hi" (by decide)



/-- C5 counterexample: `iKeyA` and `iKeyB` are different song identities,
but both format to the key `A - B - C`.  After tracking and emitting
for `iKeyA`, a sample for `iKeyB` does NOT reset the tracker: the tick
is a complete no-op (no fresh emission, `lastLyricText` still set) even
though the identity changed. -/
theorem tick_song_change_reset_counterexample :
    (iKeyB.Artist, iKeyB.Title) ≠ (iKeyA.Artist, iKeyA.Title) ∧
    tick (tick idleSt (some iKeyA) (.ok tlL) true).state (some iKeyB) (.error ()) true =
      ⟨(tick idleSt (some iKeyA) (.ok tlL) true).state, none, none, none⟩ ∧
    (tick idleSt (some iKeyA) (.ok tlL) true).state.lastLyricText = "LineL" := by
  refine ⟨by decide, ?_, by decide⟩
  decide

/-- C5, amended.  Whenever the sample's formatted key differs from the
tracked key, the tracker adopts the new key and clears
`lastLyricText`; with a fetched timeline resolving a line with
non-empty text (and the clipboard not failing), the tick emits that
line even when its text equals the previous song's last emitted text.
Distinct identities whose formatted keys collide are treated as the
same song (see the counterexample). -/
theorem tick_key_change_reset (st : OrchState) (info : SongInfo)
    (hk : songKeyOf info ≠ st.currentSongKey) :
    (∀ (e : Unit) (c : Bool), tick st (some info) (.error e) c =
      ⟨{ st with
          currentSongKey := songKeyOf info
          lastLyricText := ""
          currentLyrics := none }, none, none, none⟩) ∧
    (∀ (tl : SyncedLyrics) (line : LyricLine) (c : Bool),
      GetLineAtTime tl (info.Position + st.lyricOffset) = some line →
      line.Text ≠ "" → (st.updateClipboard = false ∨ c = true) →
      (tick st (some info) (.ok tl) c).emitted = some line.Text ∧
      (tick st (some info) (.ok tl) c).state =
        { st with
            currentSongKey := songKeyOf info
            currentLyrics := some tl
            lastLyricText := line.Text }) := by
  constructor
  · intro e c
    rw [tick_some_eq, if_neg hk]
  · intro tl line c hg hne hcl
    have houter : tick st (some info) (.ok tl) c =
        afterFetch
          { st with
              currentSongKey := songKeyOf info
              lastLyricText := ""
              currentLyrics := some tl } info c := by
      rw [tick_some_eq, if_neg hk]
    rw [houter,
      afterFetch_eq_line
        { st with
            currentSongKey := songKeyOf info
            lastLyricText := ""
            currentLyrics := some tl } info c tl line rfl hg]
    dsimp only
    rw [if_neg hne]
    rcases hcl with hu | hc
    · rw [if_neg (show ¬ st.updateClipboard = true by simp [hu])]
      exact ⟨rfl, rfl⟩
    · subst hc
      by_cases hu : st.updateClipboard
      · rw [if_pos hu, if_pos rfl]
        exact ⟨rfl, rfl⟩
      · rw [if_neg hu]
        exact ⟨rfl, rfl⟩

/-- C5 witness: a new song whose first line text equals the previous
song's last emitted text still produces a fresh emission. -/
theorem tick_key_change_reset_witness :
    (tick stV (some iV) (.ok tlV) true).emitted = some "Same" ∧
    (tick stV (some iV) (.ok tlV) true).state =
      { stV with
          currentSongKey := songKeyOf iV
          currentLyrics := some tlV
          lastLyricText := "Same" } :=
  (tick_key_change_reset stV iV (by decide)).2 tlV ⟨0, "Same"⟩ true (by decide)
    (by decide) (Or.inr rfl)



/-- The tick tail depends on position and offset only through their
sum. -/
theorem afterFetch_offset (st : OrchState) (info : SongInfo) (c : Bool) (O : Int) :
    afterFetch { st with lyricOffset := O } info c =
      reOffset O (afterFetch { st with lyricOffset := 0 }
        { info with Position := info.Position + O } c) := by
  obtain ⟨k, ly, lt, off, up⟩ := st
  obtain ⟨ar, ti, al, pos, pl⟩ := info
  dsimp only
  cases ly with
  | none =>
    rw [afterFetch_eq_none_lyr ⟨k, none, lt, O, up⟩ ⟨ar, ti, al, pos, pl⟩ c rfl,
      afterFetch_eq_none_lyr ⟨k, none, lt, 0, up⟩ ⟨ar, ti, al, pos + O, pl⟩ c rfl,
      reOffset]
  | some lyr =>
    have hpos : pos + O + (0 : Int) = pos + O := by omega
    cases hg : GetLineAtTime lyr (pos + O) with
    | none =>
      rw [afterFetch_eq_no_line ⟨k, some lyr, lt, O, up⟩ ⟨ar, ti, al, pos, pl⟩ c
          lyr rfl hg,
        afterFetch_eq_no_line ⟨k, some lyr, lt, 0, up⟩ ⟨ar, ti, al, pos + O, pl⟩ c
          lyr rfl (show GetLineAtTime lyr (pos + O + 0) = none by rw [hpos]; exact hg),
        reOffset]
    | some line =>
      rw [afterFetch_eq_line ⟨k, some lyr, lt, O, up⟩ ⟨ar, ti, al, pos, pl⟩ c
          lyr line rfl hg,
        afterFetch_eq_line ⟨k, some lyr, lt, 0, up⟩ ⟨ar, ti, al, pos + O, pl⟩ c
          lyr line rfl
          (show GetLineAtTime lyr (pos + O + 0) = some line by rw [hpos]; exact hg)]
      dsimp only
      by_cases ht : line.Text = lt
      · rw [if_pos ht, if_pos ht, reOffset]
      · rw [if_neg ht, if_neg ht]
        by_cases hu : up = true
        · rw [if_pos hu, if_pos hu]
          cases c with
          | false =>
            rw [if_neg (show ¬ false = true by decide),
              if_neg (show ¬ false = true by decide), reOffset]
          | true => rw [if_pos rfl, if_pos rfl, reOffset]
        · rw [if_neg hu, if_neg hu, reOffset]

/-- C6.  Offset correctness: a tick with offset `O` at position `P`
behaves exactly like a tick with offset `0` at position `P + O` — same
log, same clipboard write, same emission, and the same state apart from
the `lyricOffset` field itself. -/
theorem tick_offset_shift (st : OrchState) (det : Option SongInfo)
    (fetch : Except Unit SyncedLyrics) (c : Bool) (O : Int) :
    tick { st with lyricOffset := O } det fetch c =
      reOffset O (tick { st with lyricOffset := 0 } (shiftSample O det) fetch c) := by
  cases det with
  | none =>
    obtain ⟨k, ly, lt, off, up⟩ := st
    rw [show shiftSample O none = none from rfl]
    dsimp only
    by_cases hk : k = ""
    · rw [show tick ⟨k, ly, lt, O, up⟩ none fetch c =
          ⟨⟨k, ly, lt, O, up⟩, none, none, none⟩ from by
            rw [tick]; exact if_pos hk,
        show tick ⟨k, ly, lt, 0, up⟩ none fetch c =
          ⟨⟨k, ly, lt, 0, up⟩, none, none, none⟩ from by
            rw [tick]; exact if_pos hk,
        reOffset]
    · rw [show tick ⟨k, ly, lt, O, up⟩ none fetch c =
          ⟨⟨"", none, "", O, up⟩, none, none, none⟩ from by
            rw [tick]; exact if_neg hk,
        show tick ⟨k, ly, lt, 0, up⟩ none fetch c =
          ⟨⟨"", none, "", 0, up⟩, none, none, none⟩ from by
            rw [tick]; exact if_neg hk,
        reOffset]
  | some info =>
    rw [show shiftSample O (some info) =
      some { info with Position := info.Position + O } from rfl]
    rw [tick_some_eq, tick_some_eq]
    rw [show songKeyOf { info with Position := info.Position + O } = songKeyOf info
      from rfl]
    dsimp only
    by_cases hk : songKeyOf info = st.currentSongKey
    · rw [if_pos hk, if_pos hk]
      exact afterFetch_offset st info c O
    · rw [if_neg hk, if_neg hk]
      cases fetch with
      | error e => rw [reOffset]
      | ok tl =>
        exact afterFetch_offset
          { st with
              currentSongKey := songKeyOf info
              lastLyricText := ""
              currentLyrics := some tl } info c O



/-- C7 counterexample: two different `(artist, title)` pairs with equal
formatted keys, which the tracker treats as the same song (the tick is
a no-op even though the fetch input is an error); the `|||` cache key
collides likewise.  Sameness of song is therefore not equivalent to
equality of the pair. -/
theorem song_identity_collision_counterexample :
    (i7a.Artist, i7a.Title) ≠ (i7b.Artist, i7b.Title) ∧
    songKeyOf i7a = songKeyOf i7b ∧
    st7.currentSongKey = songKeyOf i7a ∧
    tick st7 (some i7b) (.error ()) true = ⟨st7, none, none, none⟩ ∧
    getCacheKey "a|" "|b" = getCacheKey "a" "||b" ∧
    ("a|", "|b") ≠ ("a", "||b") := by
  refine ⟨by decide, by decide, by decide, ?_, by decide, by decide⟩
  decide

/-- C7, amended.  Sameness of song is decided by equality of the
formatted key (and the cache is keyed by the `|||`-joined pair): equal
pairs always give equal keys, a matching key leaves the key and
timeline untouched for any fetch input, and a differing key installs
the new key and the fetch result as the timeline.  Pair equality is
sufficient but not necessary — distinct pairs with colliding keys are
treated as the same song. -/
theorem tick_same_song_iff_key (st : OrchState) (info : SongInfo) :
    (∀ i2 : SongInfo, i2.Artist = info.Artist → i2.Title = info.Title →
      songKeyOf i2 = songKeyOf info ∧
      getCacheKey i2.Artist i2.Title = getCacheKey info.Artist info.Title) ∧
    (songKeyOf info = st.currentSongKey →
      ∀ (fetch : Except Unit SyncedLyrics) (c : Bool),
        (tick st (some info) fetch c).state.currentLyrics = st.currentLyrics ∧
        (tick st (some info) fetch c).state.currentSongKey = st.currentSongKey) ∧
    (songKeyOf info ≠ st.currentSongKey →
      ∀ (fetch : Except Unit SyncedLyrics) (c : Bool),
        (tick st (some info) fetch c).state.currentSongKey = songKeyOf info ∧
        (tick st (some info) fetch c).state.currentLyrics = fetch.toOption) := by
  refine ⟨?_, ?_, ?_⟩
  · intro i2 ha ht
    constructor
    · rw [songKeyOf, songKeyOf, ha, ht]
    · rw [getCacheKey, getCacheKey, ha, ht]
  · intro hk fetch c
    have houter : tick st (some info) fetch c = afterFetch st info c := by
      rw [tick_some_eq, if_pos hk]
    rw [houter]
    cases hc : st.currentLyrics with
    | none =>
      rw [afterFetch_eq_none_lyr st info c hc]
      exact ⟨hc, rfl⟩
    | some lyr =>
      cases hg : GetLineAtTime lyr (info.Position + st.lyricOffset) with
      | none =>
        rw [afterFetch_eq_no_line st info c lyr hc hg]
        exact ⟨hc, rfl⟩
      | some line =>
        rw [afterFetch_eq_line st info c lyr line hc hg]
        by_cases ht : line.Text = st.lastLyricText
        · rw [if_pos ht]
          exact ⟨hc, rfl⟩
        · rw [if_neg ht]
          by_cases hu : st.updateClipboard
          · rw [if_pos hu]
            cases c with
            | false =>
              rw [if_neg (show ¬ false = true by decide)]
              exact ⟨hc, rfl⟩
            | true =>
              rw [if_pos rfl]
              exact ⟨hc, rfl⟩
          · rw [if_neg hu]
            exact ⟨hc, rfl⟩
  · intro hk fetch c
    cases fetch with
    | error e =>
      have houter : tick st (some info) (.error e) c =
          ⟨{ st with
              currentSongKey := songKeyOf info
              lastLyricText := ""
              currentLyrics := none }, none, none, none⟩ := by
        rw [tick_some_eq, if_neg hk]
      rw [houter]
      exact ⟨rfl, rfl⟩
    | ok tl =>
      have houter : tick st (some info) (.ok tl) c =
          afterFetch
            { st with
                currentSongKey := songKeyOf info
                lastLyricText := ""
                currentLyrics := some tl } info c := by
        rw [tick_some_eq, if_neg hk]
      rw [houter]
      cases hg : GetLineAtTime tl (info.Position + st.lyricOffset) with
      | none =>
        rw [afterFetch_eq_no_line
          { st with
              currentSongKey := songKeyOf info
              lastLyricText := ""
              currentLyrics := some tl } info c tl rfl hg]
        exact ⟨rfl, rfl⟩
      | some line =>
        rw [afterFetch_eq_line
          { st with
              currentSongKey := songKeyOf info
              lastLyricText := ""
              currentLyrics := some tl } info c tl line rfl hg]
        dsimp only
        by_cases ht : line.Text = ""
        · rw [if_pos ht]
          exact ⟨rfl, rfl⟩
        · rw [if_neg ht]
          by_cases hu : st.updateClipboard = true
          · rw [if_pos hu]
            cases c with
            | false =>
              rw [if_neg (show ¬ false = true by decide)]
              exact ⟨rfl, rfl⟩
            | true =>
              rw [if_pos rfl]
              exact ⟨rfl, rfl⟩
          · rw [if_neg hu]
            exact ⟨rfl, rfl⟩

/-- C7 witness: a sample whose key matches the tracked key leaves key and
timeline unchanged. -/
theorem tick_same_song_iff_key_witness :
    (tick st7 (some i7a) (.error ()) false).state.currentLyrics = st7.currentLyrics ∧
    (tick st7 (some i7a) (.error ()) false).state.currentSongKey =
      st7.currentSongKey :=
  (tick_same_song_iff_key st7 i7a).2.1 (by decide) (.error ()) false



/-- C8 counterexample: with a pending line and a failing clipboard, the
tick attempts the write but `lastLyricText` keeps its old value (it is
not updated to the emitted text, contrary to the claim), and the very
next tick attempts the same write again — the failed write IS
retried. -/
theorem clipboard_failure_counterexample :
    (tick st8 (some i8) (.error ()) false).state.lastLyricText = "Old" ∧
    (tick st8 (some i8) (.error ()) false).wrote = some "New" ∧
    (tick st8 (some i8) (.error ()) false).emitted = none ∧
    (tick (tick st8 (some i8) (.error ()) false).state (some i8)
      (.error ()) false).wrote = some "New" := by
  refine ⟨?_, ?_, ?_, ?_⟩ <;> decide

/-- C8, amended.  When the resolved line differs from `lastLyricText`,
clipboard updates are enabled and the write fails, the tick logs and
attempts the write but returns early: the state is completely
unchanged (`lastLyricText` is NOT updated, no completed emission), and
the following tick retries the same write. -/
theorem tick_clip_failure_no_update (st : OrchState) (info : SongInfo)
    (lyr : SyncedLyrics) (line : LyricLine)
    (hk : songKeyOf info = st.currentSongKey)
    (hc : st.currentLyrics = some lyr)
    (hg : GetLineAtTime lyr (info.Position + st.lyricOffset) = some line)
    (hne : line.Text ≠ st.lastLyricText)
    (hu : st.updateClipboard = true) :
    ∀ fetch : Except Unit SyncedLyrics,
      tick st (some info) fetch false = ⟨st, some line.Text, some line.Text, none⟩ ∧
      (tick (tick st (some info) fetch false).state (some info) fetch false).wrote =
        some line.Text := by
  intro fetch
  have h1 : tick st (some info) fetch false =
      ⟨st, some line.Text, some line.Text, none⟩ := by
    have houter : tick st (some info) fetch false = afterFetch st info false := by
      rw [tick_some_eq, if_pos hk]
    rw [houter, afterFetch_eq_line st info false lyr line hc hg, if_neg hne,
      if_pos hu, if_neg (show ¬ false = true by decide)]
  refine ⟨h1, ?_⟩
  rw [h1, h1]

/-- C8 witness: the concrete failing-write tick. -/
theorem tick_clip_failure_no_update_witness :
    tick st8 (some i8) (.error ()) false = ⟨st8, some "New", some "New", none⟩ ∧
    (tick (tick st8 (some i8) (.error ()) false).state (some i8)
      (.error ()) false).wrote = some "New" :=
  tick_clip_failure_no_update st8 i8 tl8 ⟨0, "New"⟩ (by decide) (by decide)
    (by decide) (by decide) (by decide) (.error ())

/-- C9 counterexample: the five-tick scenario stream actually yields the
emissions none, `Hello`, none, none, none — tick 1 (position 0s) emits
nothing because 0s precedes the first timestamp at 1.00s, and tick 5
(position 0.5s) likewise emits nothing — not the claimed sequence
emitting on ticks 1 and 5. -/
theorem scenario_stream_counterexample :
    scenEmissions = [none, some "Hello", none, none, none] ∧
    scenEmissions ≠ [some "Hello", none, none, none, some "Hello"] := by
  constructor <;> decide

/-- C9, amended.  The scenario stream yields nothing on tick 1 (0s is
before the first timestamp), `Hello` on tick 2, nothing on tick 3
(same line), nothing on tick 4 — which resets to idle, clearing
identity, timeline and `lastLyricText` — and nothing on tick 5 (0.5s
is again before the first timestamp of the freshly re-entered song). -/
theorem scenario_stream_run :
    scenEmissions = [none, some "Hello", none, none, none] ∧
    scenT2.emitted = some "Hello" ∧
    scenT4.state = ⟨"", none, "", 0, true⟩ := by
  refine ⟨?_, ?_, ?_⟩ <;> decide

end LyricApp
